import Mathlib

/-!
Verification of the dynamic configuration assembly engine of the traefik
repository (docker provider `buildConfiguration` pipeline and the file
loading collaborator `decodeFileToNode`).

The implementation of the docker provider's builder (`config.go`), the label
decoder and the generic merge helper are not present under `src/`; only their
test file `src/pkg/provider/docker/config_test.go` is.  Those parts are
modelled from the specification (`spec.md`) and are pinned at many concrete
points by the expected outputs of that test file.  `decodeFileToNode` is
modelled directly from `src/pkg/config/file/file_node.go`.
-/

namespace Traefik

/-- Association-list lookup (first match), modelling access to a Go map that
is represented as an insertion-ordered list of key/value pairs. -/
def lookupA {α : Type} : List (String × α) → String → Option α
  | [], _ => none
  | (k, v) :: t, n => if k = n then some v else lookupA t n

/-- Replace the value stored under key `n`; a no-op when `n` is absent. -/
def updateA {α : Type} : List (String × α) → String → α → List (String × α)
  | [], _, _ => []
  | (k, w) :: t, n, v => if k = n then (k, v) :: t else (k, w) :: updateA t n v

/-- Number of entries carrying key `n`. -/
def countKey {α : Type} (l : List (String × α)) (n : String) : Nat :=
  (l.filter (fun kv => decide (kv.1 = n))).length

/-- Whether `n` occurs in a list of keys. -/
def anyKey (bad : List String) (n : String) : Bool :=
  bad.any (fun k => decide (k = n))

/-- Values contributed under key `n`, in input order. -/
def contribsFor {α : Type} (l : List (String × α)) (n : String) : List α :=
  (l.filter (fun kv => decide (kv.1 = n))).map Prod.snd

/-- State of the multi-producer merge: the accumulated entity map plus the
names marked for deletion because of a conflict. -/
structure MergeSt (α : Type) where
  acc : List (String × α)
  bad : List String

/-- Modelled from the spec: one step of the Configuration Builder's merge
(spec 4.5 steps 1-3; the Go helper `provider.Merge` with its `AddRouter` /
`AddMiddleware` / `AddService` collaborators is missing from src).  A fresh
name is inserted; a repeated name is merged when `mg` accepts the pair and
otherwise the name is marked for deletion (ambiguity fails closed). -/
def mergeStep {α : Type} (mg : α → α → Bool) (mr : α → α → α)
    (st : MergeSt α) (kv : String × α) : MergeSt α :=
  match lookupA st.acc kv.1 with
  | none => ⟨st.acc ++ [kv], st.bad⟩
  | some old =>
      if mg old kv.2 then ⟨updateA st.acc kv.1 (mr old kv.2), st.bad⟩
      else ⟨st.acc, kv.1 :: st.bad⟩

/-- Modelled from the spec: merge the per-instance contributions for one
entity kind (spec 4.5 step 2): process contributions in input order, then
drop every name that was ever involved in a conflict. -/
def mergeEntities {α : Type} (mg : α → α → Bool) (mr : α → α → α)
    (l : List (String × α)) : List (String × α) :=
  let st := l.foldl (mergeStep mg mr) ⟨[], []⟩
  st.acc.filter (fun kv => !(anyKey st.bad kv.1))

/-- Per-key trace of the merge: the running value and conflict flag for one
fixed entity name, fed only with the contributions for that name. -/
def keyRun {α : Type} (mg : α → α → Bool) (mr : α → α → α) :
    Option α → Bool → List α → Option α × Bool
  | cur, bad, [] => (cur, bad)
  | none, bad, v :: t => keyRun mg mr (some v) bad t
  | some old, bad, v :: t =>
      if mg old v then keyRun mg mr (some (mr old v)) bad t
      else keyRun mg mr (some old) true t

/-- Boolean equality induced by a classifier `f`; the merge predicates of the
builder all have this shape (full equality for routers and middlewares,
equality of the non-server portion for services). -/
def eqBy {α β : Type} [DecidableEq β] (f : α → β) (a b : α) : Bool :=
  decide (f a = f b)

/-- Keep the first definition (used for routers and middlewares, where a
repeated equal definition deduplicates). -/
def keepFirst {α : Type} (a _b : α) : α := a

/-! ### String helpers

Executable counterparts of the Go string helpers used by the decoder and
the rule templater, written by structural recursion on character lists so
that concrete inputs evaluate inside the kernel. -/

/-- Split a character list on a separator character (Go `strings.Split`). -/
def splitCharsOn (sep : Char) : List Char → List (List Char)
  | [] => [[]]
  | c :: t =>
      let r := splitCharsOn sep t
      if c = sep then [] :: r
      else
        match r with
        | [] => [[c]]
        | h :: t2 => (c :: h) :: t2

/-- Split a string on a separator character. -/
def splitStr (sep : Char) (s : String) : List String :=
  (splitCharsOn sep s.data).map String.mk

/-- Lower-case one ASCII character. -/
def charLower (c : Char) : Char :=
  if c.isUpper then Char.ofNat (c.toNat + 32) else c

/-- Lower-case a string (ASCII, as the schema field matching needs). -/
def lowerStr (s : String) : String :=
  String.mk (s.data.map charLower)

/-- Comma-separated list value (Go label slice values), dropping empties. -/
def splitComma (s : String) : List String :=
  (splitStr ',' s).filter (fun x => decide (x ≠ ""))

/-- Least element of a nonempty list of naturals (the builder picks the
lowest exposed port). -/
def minNatList (p : Nat) (l : List Nat) : Nat := l.foldl Nat.min p

/-! ### Data model (the `config` package types used by the builder) -/

/-- HTTP server endpoint of a load balancer. -/
structure Server where
  url : String
  scheme : String
  port : String
deriving DecidableEq

/-- HTTP load-balancer definition: ordered server list plus behavior flags. -/
structure LoadBalancer where
  servers : List Server
  passHostHeader : Bool
deriving DecidableEq

/-- HTTP service definition. -/
structure Service where
  loadBalancer : LoadBalancer
deriving DecidableEq

/-- HTTP router definition. -/
structure Router where
  rule : String
  service : String
  middlewares : List String
deriving DecidableEq

/-- Middleware definition: exactly one populated option variant (spec 3);
the variants exercised by the repository's tests. -/
inductive Middleware where
  | maxConn (amount : Int) (extractorFunc : String)
  | basicAuth (users : List String)
deriving DecidableEq

/-- TCP server endpoint. -/
structure TCPServer where
  address : String
  port : String
deriving DecidableEq

/-- TCP load-balancer definition (no header behavior, spec 3). -/
structure TCPLoadBalancer where
  servers : List TCPServer
deriving DecidableEq

/-- TCP service definition. -/
structure TCPService where
  loadBalancer : TCPLoadBalancer
deriving DecidableEq

/-- TCP router definition; `tls` models the optional TLS marker. -/
structure TCPRouter where
  rule : String
  service : String
  tls : Bool
deriving DecidableEq

/-- HTTP sub-tree of the output configuration; the three maps are always
present (possibly empty). -/
structure HTTPConfiguration where
  routers : List (String × Router)
  middlewares : List (String × Middleware)
  services : List (String × Service)
deriving DecidableEq

/-- TCP sub-tree of the output configuration. -/
structure TCPConfiguration where
  routers : List (String × TCPRouter)
  services : List (String × TCPService)
deriving DecidableEq

/-- Top-level output configuration. -/
structure Configuration where
  http : HTTPConfiguration
  tcp : TCPConfiguration
deriving DecidableEq

/-- The empty HTTP sub-tree. -/
def emptyHTTP : HTTPConfiguration := ⟨[], [], []⟩

/-- The empty TCP sub-tree. -/
def emptyTCP : TCPConfiguration := ⟨[], []⟩

/-- The empty configuration: both sub-trees present, all maps empty. -/
def emptyConf : Configuration := ⟨emptyHTTP, emptyTCP⟩

/-- One discovered backend instance (the provider's `dockerData`): a stable
name, unique labels, one reachable address with candidate ports, and a
health state. -/
structure DockerData where
  id : String
  serviceName : String
  name : String
  labels : List (String × String)
  addr : String
  ports : List Nat
  health : String
deriving DecidableEq

/-! ### Label decoding (Path/Label Parser + Generic Tree Decoder)

Modelled from the spec (4.1, 4.2, 6): the Go `label.DecodeConfiguration` /
`parser` packages are missing from src.  Only the two reserved top-level
prefixes `traefik.http` and `traefik.tcp` are decoded; field names are
matched case-insensitively; boolean literals are case-insensitive
true/false; an empty string keeps the schema default; any other coercion
failure or a path that does not fit the grammar under the reserved prefix
is a decode error for the instance. -/

/-- Case-insensitive boolean literal (spec 6). -/
def parseBool (s : String) : Option Bool :=
  if lowerStr s = "true" then some true
  else if lowerStr s = "false" then some false
  else none

/-- Numeric value of one decimal digit. -/
def digitVal (c : Char) : Option Nat :=
  if c.isDigit then some (c.toNat - 48) else none

/-- Accumulating decimal parser over a character list. -/
def parseNatChars : List Char → Option Nat → Option Nat
  | [], acc => acc
  | c :: t, acc =>
      match digitVal c, acc with
      | some d, some a => parseNatChars t (some (a * 10 + d))
      | some d, none => parseNatChars t (some d)
      | none, _ => none

/-- Standard decimal integer grammar for numeric fields (spec 4.1). -/
def parseIntStr (s : String) : Option Int :=
  match s.data with
  | '-' :: rest =>
      match parseNatChars rest none with
      | none => none
      | some n => some (-(n : Int))
  | l =>
      match parseNatChars l none with
      | none => none
      | some n => some (n : Int)

/-- Router decoded with every field at its schema default. -/
def defaultDecodedRouter : Router := ⟨"", "", []⟩

/-- Load balancer schema default: host-header passthrough enabled. -/
def defaultDecodedService : Service := ⟨⟨[], true⟩⟩

/-- Server schema default: http scheme, no explicit port. -/
def defaultDecodedServer : Server := ⟨"", "http", ""⟩

/-- TCP router decoded with every field at its schema default. -/
def defaultDecodedTCPRouter : TCPRouter := ⟨"", "", false⟩

/-- TCP service schema default. -/
def defaultDecodedTCPService : TCPService := ⟨⟨[]⟩⟩

/-- Update the (single) declared server of a load balancer, creating it at
its schema default when no server was declared yet. -/
def updServer0 (lb : LoadBalancer) (f : Server → Server) : LoadBalancer :=
  match lb.servers with
  | [] => { lb with servers := [f defaultDecodedServer] }
  | s :: t => { lb with servers := f s :: t }

/-- Set one field of an HTTP router from a lowered field path. -/
def setRouterField (path : List String) (v : String) (r : Router) : Option Router :=
  match path with
  | ["rule"] => some { r with rule := v }
  | ["service"] => some { r with service := v }
  | ["middlewares"] => some { r with middlewares := splitComma v }
  | _ => none

/-- Set one field of an HTTP service from a lowered field path. -/
def setServiceField (path : List String) (v : String) (sv : Service) : Option Service :=
  match path with
  | ["loadbalancer", "passhostheader"] =>
      if v = "" then some sv
      else
        match parseBool v with
        | none => none
        | some b => some ⟨{ sv.loadBalancer with passHostHeader := b }⟩
  | ["loadbalancer", "server", "port"] =>
      some ⟨updServer0 sv.loadBalancer (fun s => { s with port := v })⟩
  | ["loadbalancer", "server", "scheme"] =>
      some ⟨updServer0 sv.loadBalancer (fun s => { s with scheme := v })⟩
  | _ => none

/-- Set one field of a middleware from a lowered field path; the first label
seen determines the option variant, and a second variant for the same name
is a decode error (spec 3: exactly one populated variant). -/
def setMiddlewareField (path : List String) (v : String) (cur : Option Middleware) :
    Option Middleware :=
  match path with
  | ["maxconn", "amount"] =>
      match cur with
      | some (.maxConn _ e) =>
          match parseIntStr v with
          | none => none
          | some a => some (.maxConn a e)
      | none =>
          match parseIntStr v with
          | none => none
          | some a => some (.maxConn a "request.host")
      | some _ => none
  | ["maxconn", "extractorfunc"] =>
      match cur with
      | some (.maxConn a _) => some (.maxConn a v)
      | none => some (.maxConn 0 v)
      | some _ => none
  | ["basicauth", "users"] =>
      match cur with
      | none => some (.basicAuth (splitComma v))
      | some (.basicAuth _) => some (.basicAuth (splitComma v))
      | some _ => none
  | _ => none

/-- Set one field of a TCP router from a lowered field path. -/
def setTCPRouterField (path : List String) (v : String) (r : TCPRouter) : Option TCPRouter :=
  match path with
  | ["rule"] => some { r with rule := v }
  | ["service"] => some { r with service := v }
  | ["tls"] =>
      if v = "" then some r
      else
        match parseBool v with
        | none => none
        | some b => some { r with tls := b }
  | _ => none

/-- Set one field of a TCP service from a lowered field path. -/
def setTCPServiceField (path : List String) (v : String) (sv : TCPService) : Option TCPService :=
  match path with
  | ["loadbalancer", "server", "port"] =>
      match sv.loadBalancer.servers with
      | [] => some ⟨⟨[⟨"", v⟩]⟩⟩
      | s :: t => some ⟨⟨{ s with port := v } :: t⟩⟩
  | _ => none

/-- Insert-or-update into an entity map, reporting decode failure. -/
def upsertWith {α : Type} (d : α) (f : α → Option α) :
    List (String × α) → String → Option (List (String × α))
  | [], n =>
      match f d with
      | none => none
      | some v => some [(n, v)]
  | (k, v) :: t, n =>
      if k = n then
        match f v with
        | none => none
        | some v2 => some ((k, v2) :: t)
      else
        match upsertWith d f t n with
        | none => none
        | some t2 => some ((k, v) :: t2)

/-- Decode one label into the partial per-instance configuration.  Labels
outside the two reserved prefixes are ignored; a path under a reserved
prefix that does not fit the grammar is a decode error. -/
def decodeLabel (conf : Configuration) (kv : String × String) : Option Configuration :=
  match splitStr '.' kv.1 with
  | "traefik" :: "http" :: "routers" :: name :: fieldPath =>
      match upsertWith defaultDecodedRouter
          (setRouterField (fieldPath.map lowerStr) kv.2) conf.http.routers name with
      | none => none
      | some rs => some { conf with http := { conf.http with routers := rs } }
  | "traefik" :: "http" :: "services" :: name :: fieldPath =>
      match upsertWith defaultDecodedService
          (setServiceField (fieldPath.map lowerStr) kv.2) conf.http.services name with
      | none => none
      | some ss => some { conf with http := { conf.http with services := ss } }
  | "traefik" :: "http" :: "middlewares" :: name :: fieldPath =>
      match lookupA conf.http.middlewares name with
      | some cur =>
          match setMiddlewareField (fieldPath.map lowerStr) kv.2 (some cur) with
          | none => none
          | some mw =>
              some { conf with http :=
                { conf.http with middlewares := updateA conf.http.middlewares name mw } }
      | none =>
          match setMiddlewareField (fieldPath.map lowerStr) kv.2 none with
          | none => none
          | some mw =>
              some { conf with http :=
                { conf.http with middlewares := conf.http.middlewares ++ [(name, mw)] } }
  | "traefik" :: "tcp" :: "routers" :: name :: fieldPath =>
      match upsertWith defaultDecodedTCPRouter
          (setTCPRouterField (fieldPath.map lowerStr) kv.2) conf.tcp.routers name with
      | none => none
      | some rs => some { conf with tcp := { conf.tcp with routers := rs } }
  | "traefik" :: "tcp" :: "services" :: name :: fieldPath =>
      match upsertWith defaultDecodedTCPService
          (setTCPServiceField (fieldPath.map lowerStr) kv.2) conf.tcp.services name with
      | none => none
      | some ss => some { conf with tcp := { conf.tcp with services := ss } }
  | "traefik" :: "http" :: _ => none
  | "traefik" :: "tcp" :: _ => none
  | _ => some conf

/-- Decode all labels of one instance into its partial configuration. -/
def decodeLabelsAux : Configuration → List (String × String) → Option Configuration
  | conf, [] => some conf
  | conf, kv :: t =>
      match decodeLabel conf kv with
      | none => none
      | some c2 => decodeLabelsAux c2 t

/-- Modelled from the spec: the per-instance label decode
(`label.DecodeConfiguration`, missing from src; spec 4.1-4.2). -/
def decodeLabels (labels : List (String × String)) : Option Configuration :=
  decodeLabelsAux emptyConf labels

/-! ### Rule templater (spec 4.3)

Modelled from the spec: the default-rule template machinery (Go
`text/template` with the provider's helper functions) is missing from src.
A template is a sequence of literal pieces and context references; the
context exposes the instance name, the instance labels, and the identifier
normalization helper.  A reference that the context does not know is an
evaluation error, which yields an empty rule rather than aborting. -/

/-- Character classifier for identifier normalization: letters and digits
survive, everything else separates fields. -/
def isAlnum (c : Char) : Bool := c.isAlpha || c.isDigit

/-- Split a character list into maximal alphanumeric runs. -/
def fieldsAlnum : List Char → List Char → List (List Char)
  | [], [] => []
  | [], cur => [cur.reverse]
  | c :: t, cur =>
      if isAlnum c then fieldsAlnum t (c :: cur)
      else
        match cur with
        | [] => fieldsAlnum t []
        | _ => cur.reverse :: fieldsAlnum t []

/-- Join strings with a dash. -/
def joinDash : List String → String
  | [] => ""
  | [s] => s
  | s :: s2 :: t => s ++ "-" ++ joinDash (s2 :: t)

/-- Identifier normalization: strip characters illegal in generated names
and collapse separators to single dashes. -/
def normalizeStr (s : String) : String :=
  joinDash ((fieldsAlnum s.data []).map String.mk)

/-- Evaluation context of the rule templater: instance name and labels. -/
structure TmplModel where
  name : String
  labels : List (String × String)

/-- A rule template: literals, context references, and an unresolvable
reference standing for an unknown field or function. -/
inductive Tmpl where
  | lit (s : String)
  | varName
  | normName
  | labelValue (key : String)
  | badRef
  | seq (a b : Tmpl)

/-- Template evaluation; `none` is an evaluation error (spec 4.3: unknown
field or function).  A missing label renders as the empty string. -/
def evalTmpl : Tmpl → TmplModel → Option String
  | .lit s, _ => some s
  | .varName, m => some m.name
  | .normName, m => some (normalizeStr m.name)
  | .labelValue k, m =>
      some (match lookupA m.labels k with
            | none => ""
            | some v => v)
  | .badRef, _ => none
  | .seq a b, m =>
      match evalTmpl a m, evalTmpl b m with
      | some x, some y => some (x ++ y)
      | _, _ => none

/-! ### Constraint filter (spec 4.4)

Modelled from the spec: the provider's `keepContainer` and the constraint
types are missing from src; the enable-label override is pinned by
`TestApplicationFilterEnabled` and the eligibility tests of
`Test_buildConfiguration`. -/

/-- One global tag constraint. -/
structure Constraint where
  key : String
  mustMatch : Bool
  value : String

/-- The build-time configuration of the provider (injected values: the
exposed-by-default flag, the default rule template, the constraint list). -/
structure Provider where
  exposedByDefault : Bool
  defaultRule : Tmpl
  constraints : List Constraint

/-- Enable check: an explicit, parseable enable label overrides the global
exposed-by-default flag; an absent or unparseable label falls back to it. -/
def getEnable (p : Provider) (c : DockerData) : Bool :=
  match lookupA c.labels "traefik.enable" with
  | none => p.exposedByDefault
  | some v =>
      match parseBool v with
      | some b => b
      | none => p.exposedByDefault

/-- Declared tag set of an instance, from the delimited tags label. -/
def getTags (c : DockerData) : List String :=
  match lookupA c.labels "traefik.tags" with
  | none => []
  | some v => splitComma v

/-- One constraint evaluated against a tag set: `mustMatch` requires
presence and equality; constraints for other keys are vacuous. -/
def matchConstraint (tags : List String) (ct : Constraint) : Bool :=
  if ct.key = "tag" then
    if ct.mustMatch then tags.contains ct.value
    else !(tags.contains ct.value)
  else true

/-- Health check: the designated healthy/running states. -/
def healthOK (c : DockerData) : Bool :=
  c.health = "" || c.health = "healthy"

/-- Instance eligibility: conjunction of the enable check, the health
check, and the tag constraints (spec 4.4). -/
def keepContainer (p : Provider) (c : DockerData) : Bool :=
  getEnable p c && healthOK c && p.constraints.all (matchConstraint (getTags c))

/-! ### Endpoint resolution and per-instance build (spec 4.5 steps 3-4) -/

/-- Lowest exposed port of the instance, if any. -/
def getPort (c : DockerData) : Option Nat :=
  match c.ports with
  | [] => none
  | p :: t => some (minNatList p t)

/-- Explicit server port declared on an HTTP load balancer. -/
def getLBServerPort (lb : LoadBalancer) : String :=
  match lb.servers with
  | [] => ""
  | s :: _ => s.port

/-- Explicit server port declared on a TCP load balancer. -/
def getTCPServerPort (lb : TCPLoadBalancer) : String :=
  match lb.servers with
  | [] => ""
  | s :: _ => s.port

/-- Port the instance resolves to: the explicit server-port label wins over
the lowest discovered port; empty when neither exists. -/
def resolvedPort (c : DockerData) (serverPort : String) : String :=
  if serverPort = "" then
    match getPort c with
    | none => ""
    | some p => toString p
  else serverPort

/-- Modelled from the spec: attach the instance's resolved endpoint to an
HTTP load balancer (the provider's `addServer`, missing from src).  The
explicit server-port label wins over the lowest discovered port; a missing
port or address is a resolution failure and the instance contributes
nothing (spec 4.5 step 4: never a zero-server service). -/
def addServer (c : DockerData) (lb : LoadBalancer) : Option LoadBalancer :=
  if resolvedPort c (getLBServerPort lb) = "" ∨ c.addr = "" then none
  else
    match lb.servers with
    | [] =>
        some { lb with servers :=
          [⟨defaultDecodedServer.scheme ++ "://" ++ c.addr ++ ":" ++
              resolvedPort c (getLBServerPort lb), "", ""⟩] }
    | s :: rest =>
        some { lb with servers :=
          ⟨s.scheme ++ "://" ++ c.addr ++ ":" ++
              resolvedPort c (getLBServerPort lb), "", ""⟩ :: rest }

/-- Modelled from the spec: attach the instance's resolved endpoint to a
TCP load balancer (the provider's `addServerTCP`, missing from src). -/
def addServerTCP (c : DockerData) (lb : TCPLoadBalancer) : Option TCPLoadBalancer :=
  if resolvedPort c (getTCPServerPort lb) = "" ∨ c.addr = "" then none
  else
    match lb.servers with
    | [] => some ⟨[⟨c.addr ++ ":" ++ resolvedPort c (getTCPServerPort lb), ""⟩]⟩
    | _ :: rest => some ⟨⟨c.addr ++ ":" ++ resolvedPort c (getTCPServerPort lb), ""⟩ :: rest⟩

/-- Resolve the endpoint of every declared HTTP service; the first failure
fails the instance. -/
def resolveServices (c : DockerData) :
    List (String × Service) → Option (List (String × Service))
  | [] => some []
  | (n, sv) :: t =>
      match addServer c sv.loadBalancer with
      | none => none
      | some lb =>
          match resolveServices c t with
          | none => none
          | some t2 => some ((n, ⟨lb⟩) :: t2)

/-- Resolve the endpoint of every declared TCP service. -/
def resolveTCPServices (c : DockerData) :
    List (String × TCPService) → Option (List (String × TCPService))
  | [] => some []
  | (n, sv) :: t =>
      match addServerTCP c sv.loadBalancer with
      | none => none
      | some lb =>
          match resolveTCPServices c t with
          | none => none
          | some t2 => some ((n, ⟨lb⟩) :: t2)

/-- Modelled from the spec: default service synthesis plus endpoint
resolution for HTTP (spec 4.5 step 4): an instance without explicit service
labels receives a synthetic Service named after the instance. -/
def buildServiceConfiguration (c : DockerData) (conf : HTTPConfiguration) :
    Option HTTPConfiguration :=
  let svcs :=
    if conf.services = [] then [(c.serviceName, defaultDecodedService)]
    else conf.services
  match resolveServices c svcs with
  | none => none
  | some l => some { conf with services := l }

/-- Modelled from the spec: default TCP service synthesis plus endpoint
resolution. -/
def buildTCPServiceConfiguration (c : DockerData) (conf : TCPConfiguration) :
    Option TCPConfiguration :=
  let svcs :=
    if conf.services = [] then [(c.serviceName, defaultDecodedTCPService)]
    else conf.services
  match resolveTCPServices c svcs with
  | none => none
  | some l => some { conf with services := l }

/-- Complete one HTTP router: an empty rule is filled from the default rule
template and suppresses the router on evaluation failure or emptiness; an
empty service reference is filled with the instance's single service name
and suppresses the router when the instance declares several services. -/
def fillRouter (tpl : Tmpl) (m : TmplModel) (services : List (String × Service))
    (kv : String × Router) : Option (String × Router) :=
  let rrule :=
    if kv.2.rule = "" then
      match evalTmpl tpl m with
      | none => none
      | some s => if s = "" then none else some s
    else some kv.2.rule
  match rrule with
  | none => none
  | some ru =>
      if kv.2.service = "" then
        match services with
        | [] => some (kv.1, { kv.2 with rule := ru })
        | [(sn, _)] => some (kv.1, { kv.2 with rule := ru, service := sn })
        | _ => none
      else some (kv.1, { kv.2 with rule := ru })

/-- Modelled from the spec: router synthesis and completion for HTTP
(spec 4.5 step 3): when the instance declares no explicit router and at
most one service, one default router keyed by the instance name is
synthesized; every router then gets its rule and service reference
completed or is suppressed. -/
def buildRouterConfiguration (tpl : Tmpl) (m : TmplModel) (defaultRouterName : String)
    (conf : HTTPConfiguration) : HTTPConfiguration :=
  let routers0 :=
    if conf.routers = [] then
      if conf.services.length > 1 then []
      else [(defaultRouterName, defaultDecodedRouter)]
    else conf.routers
  { conf with routers := routers0.filterMap (fillRouter tpl m conf.services) }

/-- Complete one TCP router: an empty rule suppresses it (no templating for
TCP); an empty service reference is filled with the single TCP service. -/
def fillTCPRouter (services : List (String × TCPService)) (kv : String × TCPRouter) :
    Option (String × TCPRouter) :=
  if kv.2.rule = "" then none
  else if kv.2.service = "" then
    match services with
    | [] => some kv
    | [(sn, _)] => some (kv.1, { kv.2 with service := sn })
    | _ => none
  else some kv

/-- TCP router completion (no synthesis of default TCP routers). -/
def buildTCPRouterConfiguration (conf : TCPConfiguration) : TCPConfiguration :=
  { conf with routers := conf.routers.filterMap (fillTCPRouter conf.services) }

/-- Modelled from the spec: the per-instance build (the loop body of the
provider's `buildConfiguration`, missing from src).  An ineligible instance
contributes nothing; a decode or endpoint-resolution failure makes the
whole instance contribute nothing; an instance with TCP labels and no HTTP
labels contributes only its TCP entities (no HTTP defaults). -/
def buildContainer (p : Provider) (c : DockerData) : Option Configuration :=
  if keepContainer p c then
    match decodeLabels c.labels with
    | none => none
    | some conf =>
        let m : TmplModel := ⟨c.serviceName, c.labels⟩
        if conf.tcp.routers ≠ [] ∨ conf.tcp.services ≠ [] then
          match buildTCPServiceConfiguration c conf.tcp with
          | none => none
          | some tcp1 =>
              let tcp2 := buildTCPRouterConfiguration tcp1
              if conf.http.routers = [] ∧ conf.http.middlewares = [] ∧
                  conf.http.services = [] then
                some ⟨conf.http, tcp2⟩
              else
                match buildServiceConfiguration c conf.http with
                | none => none
                | some h1 =>
                    some ⟨buildRouterConfiguration p.defaultRule m c.serviceName h1, tcp2⟩
        else
          match buildServiceConfiguration c conf.http with
          | none => none
          | some h1 =>
              some ⟨buildRouterConfiguration p.defaultRule m c.serviceName h1, conf.tcp⟩
  else none

/-! ### Multi-producer merge and the top-level build (spec 4.5 steps 1-2, 5) -/

/-- Non-server portion of an HTTP service, the part that must agree across
producers before server lists are concatenated (spec 4.5 step 3). -/
def svcStrip (sv : Service) : Service := ⟨⟨[], sv.loadBalancer.passHostHeader⟩⟩

/-- Concatenate the server lists of two mergeable HTTP services, keeping
everything else from the first. -/
def svcMerge (a b : Service) : Service :=
  ⟨⟨a.loadBalancer.servers ++ b.loadBalancer.servers, a.loadBalancer.passHostHeader⟩⟩

/-- Non-server portion of a TCP service (there is none besides the list). -/
def tcpSvcStrip (_sv : TCPService) : Unit := ()

/-- Concatenate the server lists of two TCP services. -/
def tcpSvcMerge (a b : TCPService) : TCPService :=
  ⟨⟨a.loadBalancer.servers ++ b.loadBalancer.servers⟩⟩

/-- Merge of the per-instance HTTP router maps: full equality dedupes,
anything else is a conflict. -/
def mergeRouters (l : List (String × Router)) : List (String × Router) :=
  mergeEntities (eqBy (fun r : Router => r)) keepFirst l

/-- Merge of the per-instance HTTP middleware maps: merge only on full
equality, no field-level merge (spec 4.5 step 3). -/
def mergeMiddlewares (l : List (String × Middleware)) : List (String × Middleware) :=
  mergeEntities (eqBy (fun mw : Middleware => mw)) keepFirst l

/-- Merge of the per-instance HTTP service maps: agreement of the
non-server portion concatenates the server lists in input order. -/
def mergeServices (l : List (String × Service)) : List (String × Service) :=
  mergeEntities (eqBy svcStrip) svcMerge l

/-- Merge of the per-instance TCP router maps. -/
def mergeTCPRouters (l : List (String × TCPRouter)) : List (String × TCPRouter) :=
  mergeEntities (eqBy (fun r : TCPRouter => r)) keepFirst l

/-- Merge of the per-instance TCP service maps. -/
def mergeTCPServices (l : List (String × TCPService)) : List (String × TCPService) :=
  mergeEntities (eqBy tcpSvcStrip) tcpSvcMerge l

/-- Modelled from the spec: the multi-producer merge (`provider.Merge`,
missing from src; spec 4.5 steps 1-2), processing the per-instance
contributions kind by kind in input order (spec 5: stable input order). -/
def mergeConfigurations (confs : List Configuration) : Configuration :=
  ⟨⟨mergeRouters ((confs.map (fun c => c.http.routers)).flatten),
    mergeMiddlewares ((confs.map (fun c => c.http.middlewares)).flatten),
    mergeServices ((confs.map (fun c => c.http.services)).flatten)⟩,
   ⟨mergeTCPRouters ((confs.map (fun c => c.tcp.routers)).flatten),
    mergeTCPServices ((confs.map (fun c => c.tcp.services)).flatten)⟩⟩

/-- Modelled from the spec: the provider's `buildConfiguration` (missing
from src): run the per-instance pipeline over the snapshot and merge the
surviving contributions. -/
def buildConfiguration (p : Provider) (containers : List DockerData) : Configuration :=
  mergeConfigurations (containers.filterMap (buildContainer p))

/-! ### The file-loading collaborator (`src/pkg/config/file/file_node.go`) -/

/-- Model of Go `filepath.Ext`: the suffix of the final path element
beginning at its last dot, or the empty string when it has no dot. -/
def fileExt (p : String) : String :=
  match (splitStr '/' p).getLast? with
  | none => ""
  | some seg =>
      match (splitStr '.' seg).reverse with
      | [] => ""
      | [_] => ""
      | lastPart :: _ => "." ++ lastPart

/-- Shallow embedding of `decodeFileToNode` (file_node.go lines 17-46) with
the file content read out of band and the two unmarshallers and the raw
decoder passed as collaborators: TOML for the `.toml` suffix, YAML for
`.yml` and `.yaml`, and an unsupported-extension error for anything else. -/
def decodeFileToNode {δ ν : Type}
    (tomlUnmarshal yamlUnmarshal : String → Except String δ)
    (decodeRawToNode : δ → Except String ν)
    (filePath : String) (content : String) : Except String ν :=
  match fileExt filePath with
  | ".toml" =>
      match tomlUnmarshal content with
      | .error e => .error e
      | .ok data => decodeRawToNode data
  | ".yml" =>
      match yamlUnmarshal content with
      | .error e => .error e
      | .ok data => decodeRawToNode data
  | ".yaml" =>
      match yamlUnmarshal content with
      | .error e => .error e
      | .ok data => decodeRawToNode data
  | _ => Except.error ("unsupported file extension: " ++ filePath)

/-! ### Association-list lemmas -/

theorem lookupA_append_single {α : Type} (l : List (String × α)) (k : String) (v : α)
    (n : String) :
    lookupA (l ++ [(k, v)]) n =
      match lookupA l n with
      | some w => some w
      | none => if k = n then some v else none := by
  induction l with
  | nil => simp [lookupA]
  | cons kv t ih =>
      by_cases h : kv.1 = n
      · simp [lookupA, h]
      · simpa [lookupA, h] using ih

theorem lookupA_updateA_eq {α : Type} (l : List (String × α)) (k : String) (v : α) :
    lookupA (updateA l k v) k = (lookupA l k).map (fun _ => v) := by
  induction l with
  | nil => simp [lookupA, updateA]
  | cons kv t ih =>
      by_cases h : kv.1 = k
      · simp [lookupA, updateA, h]
      · simpa [lookupA, updateA, h] using ih

theorem lookupA_updateA_ne {α : Type} (l : List (String × α)) (k : String) (v : α)
    (n : String) (h : k ≠ n) :
    lookupA (updateA l k v) n = lookupA l n := by
  induction l with
  | nil => simp [lookupA, updateA]
  | cons kv t ih =>
      by_cases hk : kv.1 = k
      · subst hk
        simp [lookupA, updateA, h]
      · by_cases hn : kv.1 = n
        · simp [lookupA, updateA, hk, hn, Ne.symm h]
        · simp [lookupA, updateA, hk, hn, ih]

theorem countKey_cons {α : Type} (kv : String × α) (t : List (String × α)) (n : String) :
    countKey (kv :: t) n = (if kv.1 = n then 1 else 0) + countKey t n := by
  by_cases h : kv.1 = n <;> simp [countKey, List.filter, h, Nat.add_comm]

theorem countKey_append_single {α : Type} (l : List (String × α)) (k : String) (v : α)
    (n : String) :
    countKey (l ++ [(k, v)]) n = countKey l n + (if k = n then 1 else 0) := by
  induction l with
  | nil =>
      rw [List.nil_append, countKey_cons]
      simp [countKey]
  | cons kv t ih =>
      rw [List.cons_append, countKey_cons, countKey_cons, ih]
      omega

theorem countKey_updateA {α : Type} (l : List (String × α)) (k : String) (v : α)
    (n : String) :
    countKey (updateA l k v) n = countKey l n := by
  induction l with
  | nil => simp [updateA]
  | cons kv t ih =>
      by_cases hk : kv.1 = k
      · simp only [updateA, if_pos hk]
        rw [countKey_cons, countKey_cons]
      · simp only [updateA, if_neg hk]
        rw [countKey_cons, countKey_cons, ih]

theorem contribsFor_cons {α : Type} (k : String) (v : α) (l : List (String × α))
    (n : String) :
    contribsFor ((k, v) :: l) n =
      if k = n then v :: contribsFor l n else contribsFor l n := by
  by_cases h : k = n <;> simp [contribsFor, List.filter, h]

theorem lookupA_mem {α : Type} (l : List (String × α)) (n : String) (v : α)
    (h : lookupA l n = some v) : (n, v) ∈ l := by
  induction l with
  | nil => simp [lookupA] at h
  | cons kv t ih =>
      rcases kv with ⟨k1, v1⟩
      by_cases hk : k1 = n
      · subst hk
        simp [lookupA] at h
        subst h
        exact List.mem_cons_self _ _
      · simp [lookupA, hk] at h
        exact List.mem_cons_of_mem _ (ih h)

theorem mem_updateA {α : Type} (l : List (String × α)) (k : String) (v : α) :
    ∀ kv ∈ updateA l k v, kv ∈ l ∨ kv.2 = v := by
  induction l with
  | nil => simp [updateA]
  | cons hd t ih =>
      intro kv hkv
      by_cases hk : hd.1 = k
      · simp only [updateA, if_pos hk] at hkv
        rcases List.mem_cons.mp hkv with h1 | h1
        · right
          rw [h1]
        · exact Or.inl (List.mem_cons_of_mem _ h1)
      · simp only [updateA, if_neg hk] at hkv
        rcases List.mem_cons.mp hkv with h1 | h1
        · rw [h1]
          exact Or.inl (List.mem_cons_self _ _)
        · rcases ih kv h1 with h2 | h2
          · exact Or.inl (List.mem_cons_of_mem _ h2)
          · exact Or.inr h2

theorem lookupA_filter_key {α : Type} (q : String → Bool) (l : List (String × α))
    (n : String) :
    lookupA (l.filter (fun kv => q kv.1)) n = if q n then lookupA l n else none := by
  induction l with
  | nil => simp [lookupA]
  | cons kv t ih =>
      by_cases hk : kv.1 = n
      · subst hk
        by_cases hq : q kv.1 <;> simp [lookupA, List.filter, hq, ih]
      · by_cases hq : q kv.1 <;> simp [lookupA, List.filter, hq, hk, ih]

theorem countKey_filter_key {α : Type} (q : String → Bool) (l : List (String × α))
    (n : String) :
    countKey (l.filter (fun kv => q kv.1)) n = if q n then countKey l n else 0 := by
  induction l with
  | nil => simp [countKey]
  | cons kv t ih =>
      by_cases hq : q kv.1
      · by_cases hk : kv.1 = n
        · subst hk
          simp [List.filter, hq, countKey_cons, ih]
        · simp [List.filter, hq, countKey_cons, hk, ih]
      · by_cases hk : kv.1 = n
        · subst hk
          simp [List.filter, hq, countKey_cons, ih]
        · simp [List.filter, hq, countKey_cons, hk, ih]

/-! ### Localization of the merge to one entity name -/

/-- Number of map entries a present/absent lookup accounts for. -/
def optCount {α : Type} : Option α → Nat
  | none => 0
  | some _ => 1

theorem foldl_mergeStep_loc {α : Type} (mg : α → α → Bool) (mr : α → α → α) (n : String) :
    ∀ (l : List (String × α)) (st : MergeSt α),
      (lookupA (l.foldl (mergeStep mg mr) st).acc n,
        anyKey (l.foldl (mergeStep mg mr) st).bad n) =
      keyRun mg mr (lookupA st.acc n) (anyKey st.bad n) (contribsFor l n) := by
  intro l
  induction l with
  | nil =>
      intro st
      simp [contribsFor, keyRun]
  | cons kv l ih =>
      intro st
      rcases kv with ⟨k, v⟩
      rw [List.foldl_cons, contribsFor_cons]
      by_cases hk : k = n
      · subst hk
        cases hcur : lookupA st.acc k with
        | none =>
            have hstep : mergeStep mg mr st (k, v) = ⟨st.acc ++ [(k, v)], st.bad⟩ := by
              simp [mergeStep, hcur]
            rw [hstep, if_pos rfl]
            have h1 : lookupA (st.acc ++ [(k, v)]) k = some v := by
              rw [lookupA_append_single, hcur]
              simp
            rw [show keyRun mg mr none (anyKey st.bad k) (v :: contribsFor l k) =
                  keyRun mg mr (some v) (anyKey st.bad k) (contribsFor l k) from rfl]
            rw [← h1]
            exact ih ⟨st.acc ++ [(k, v)], st.bad⟩
        | some old =>
            by_cases hmg : mg old v
            · have hstep : mergeStep mg mr st (k, v) =
                  ⟨updateA st.acc k (mr old v), st.bad⟩ := by
                simp [mergeStep, hcur, hmg]
              rw [hstep, if_pos rfl]
              have h1 : lookupA (updateA st.acc k (mr old v)) k = some (mr old v) := by
                rw [lookupA_updateA_eq, hcur]
                rfl
              rw [show keyRun mg mr (some old) (anyKey st.bad k) (v :: contribsFor l k) =
                    if mg old v then
                      keyRun mg mr (some (mr old v)) (anyKey st.bad k) (contribsFor l k)
                    else keyRun mg mr (some old) true (contribsFor l k) from rfl]
              rw [if_pos hmg, ← h1]
              exact ih ⟨updateA st.acc k (mr old v), st.bad⟩
            · have hstep : mergeStep mg mr st (k, v) = ⟨st.acc, k :: st.bad⟩ := by
                simp [mergeStep, hcur, hmg]
              rw [hstep, if_pos rfl]
              have h2 : anyKey (k :: st.bad) k = true := by
                simp [anyKey]
              rw [show keyRun mg mr (some old) (anyKey st.bad k) (v :: contribsFor l k) =
                    if mg old v then
                      keyRun mg mr (some (mr old v)) (anyKey st.bad k) (contribsFor l k)
                    else keyRun mg mr (some old) true (contribsFor l k) from rfl]
              rw [if_neg hmg, ← h2, ← hcur]
              exact ih ⟨st.acc, k :: st.bad⟩
      · rw [if_neg hk]
        cases hcur : lookupA st.acc k with
        | none =>
            have hstep : mergeStep mg mr st (k, v) = ⟨st.acc ++ [(k, v)], st.bad⟩ := by
              simp [mergeStep, hcur]
            rw [hstep]
            have h1 : lookupA (st.acc ++ [(k, v)]) n = lookupA st.acc n := by
              rw [lookupA_append_single]
              cases lookupA st.acc n <;> simp [hk]
            rw [← h1]
            exact ih ⟨st.acc ++ [(k, v)], st.bad⟩
        | some old =>
            by_cases hmg : mg old v
            · have hstep : mergeStep mg mr st (k, v) =
                  ⟨updateA st.acc k (mr old v), st.bad⟩ := by
                simp [mergeStep, hcur, hmg]
              rw [hstep]
              have h1 : lookupA (updateA st.acc k (mr old v)) n = lookupA st.acc n :=
                lookupA_updateA_ne _ _ _ _ hk
              rw [← h1]
              exact ih ⟨updateA st.acc k (mr old v), st.bad⟩
            · have hstep : mergeStep mg mr st (k, v) = ⟨st.acc, k :: st.bad⟩ := by
                simp [mergeStep, hcur, hmg]
              rw [hstep]
              have h2 : anyKey (k :: st.bad) n = anyKey st.bad n := by
                simp [anyKey, hk]
              rw [← h2]
              exact ih ⟨st.acc, k :: st.bad⟩

theorem foldl_mergeStep_count {α : Type} (mg : α → α → Bool) (mr : α → α → α) (n : String) :
    ∀ (l : List (String × α)) (st : MergeSt α),
      countKey st.acc n = optCount (lookupA st.acc n) →
      countKey (l.foldl (mergeStep mg mr) st).acc n =
        optCount (lookupA (l.foldl (mergeStep mg mr) st).acc n) := by
  intro l
  induction l with
  | nil =>
      intro st h
      exact h
  | cons kv l ih =>
      intro st h
      rcases kv with ⟨k, v⟩
      rw [List.foldl_cons]
      cases hcur : lookupA st.acc k with
      | none =>
          have hstep : mergeStep mg mr st (k, v) = ⟨st.acc ++ [(k, v)], st.bad⟩ := by
            simp [mergeStep, hcur]
          rw [hstep]
          refine ih _ ?_


          show countKey (st.acc ++ [(k, v)]) n = optCount (lookupA (st.acc ++ [(k, v)]) n)
          rw [countKey_append_single, lookupA_append_single]
          by_cases hk : k = n
          · subst hk
            rw [hcur] at h ⊢
            simp [h, optCount]
          · cases hl : lookupA st.acc n <;> rw [hl] at h <;> simp [h, hk, optCount]
      | some old =>
          by_cases hmg : mg old v
          · have hstep : mergeStep mg mr st (k, v) =
                ⟨updateA st.acc k (mr old v), st.bad⟩ := by
              simp [mergeStep, hcur, hmg]
            rw [hstep]
            refine ih _ ?_
            show countKey (updateA st.acc k (mr old v)) n =
              optCount (lookupA (updateA st.acc k (mr old v)) n)
            rw [countKey_updateA]
            by_cases hk : k = n
            · subst hk
              rw [lookupA_updateA_eq, hcur]
              rw [hcur] at h
              simpa [optCount] using h
            · rw [lookupA_updateA_ne _ _ _ _ hk]
              exact h
          · have hstep : mergeStep mg mr st (k, v) = ⟨st.acc, k :: st.bad⟩ := by
              simp [mergeStep, hcur, hmg]
            rw [hstep]
            exact ih _ h

/-! ### Behavior of the per-key trace -/

theorem keyRun_bad_true {α : Type} (mg : α → α → Bool) (mr : α → α → α) :
    ∀ (xs : List α) (cur : Option α), (keyRun mg mr cur true xs).2 = true := by
  intro xs
  induction xs with
  | nil =>
      intro cur
      cases cur <;> rfl
  | cons x t ih =>
      intro cur
      cases cur with
      | none => exact ih (some x)
      | some old =>
          by_cases hmg : mg old x
          · rw [show keyRun mg mr (some old) true (x :: t) =
                  if mg old x then keyRun mg mr (some (mr old x)) true t
                  else keyRun mg mr (some old) true t from rfl, if_pos hmg]
            exact ih (some (mr old x))
          · rw [show keyRun mg mr (some old) true (x :: t) =
                  if mg old x then keyRun mg mr (some (mr old x)) true t
                  else keyRun mg mr (some old) true t from rfl, if_neg hmg]
            exact ih (some old)

theorem keyRun_all_eq {α β : Type} [DecidableEq β] (f : α → β) (mr : α → α → α)
    (hmr : ∀ a b, f (mr a b) = f a) :
    ∀ (xs : List α) (a : α) (bad : Bool), (∀ x ∈ xs, f x = f a) →
      keyRun (eqBy f) mr (some a) bad xs = (some (xs.foldl mr a), bad) := by
  intro xs
  induction xs with
  | nil =>
      intro a bad _
      rfl
  | cons x t ih =>
      intro a bad hall
      have hx : f x = f a := hall x (List.mem_cons_self _ _)
      have hmg : eqBy f a x = true := by
        simp [eqBy, hx]
      rw [show keyRun (eqBy f) mr (some a) bad (x :: t) =
            if eqBy f a x then keyRun (eqBy f) mr (some (mr a x)) bad t
            else keyRun (eqBy f) mr (some a) true t from rfl, if_pos hmg]
      rw [List.foldl_cons]
      refine ih (mr a x) bad ?_
      intro y hy
      rw [hmr a x]
      exact hall y (List.mem_cons_of_mem _ hy)

theorem keyRun_conflict {α β : Type} [DecidableEq β] (f : α → β) (mr : α → α → α)
    (hmr : ∀ a b, f (mr a b) = f a) :
    ∀ (xs : List α) (a : α) (bad : Bool), (∃ x ∈ xs, f x ≠ f a) →
      (keyRun (eqBy f) mr (some a) bad xs).2 = true := by
  intro xs
  induction xs with
  | nil =>
      intro a bad h
      rcases h with ⟨x, hx, _⟩
      simp at hx
  | cons x t ih =>
      intro a bad h
      by_cases hx : f x = f a
      · have hmg : eqBy f a x = true := by
          simp [eqBy, hx]
        rw [show keyRun (eqBy f) mr (some a) bad (x :: t) =
              if eqBy f a x then keyRun (eqBy f) mr (some (mr a x)) bad t
              else keyRun (eqBy f) mr (some a) true t from rfl, if_pos hmg]
        refine ih (mr a x) bad ?_
        rcases h with ⟨y, hy, hne⟩
        rcases List.mem_cons.mp hy with h1 | h1
        · exfalso
          rw [h1] at hne
          exact hne hx
        · refine ⟨y, h1, ?_⟩
          rw [hmr a x]
          exact hne
      · have hmg : eqBy f a x = false := by
          simp [eqBy]
          intro hc
          exact hx hc.symm
        rw [show keyRun (eqBy f) mr (some a) bad (x :: t) =
              if eqBy f a x then keyRun (eqBy f) mr (some (mr a x)) bad t
              else keyRun (eqBy f) mr (some a) true t from rfl, if_neg (by simp [hmg])]
        exact keyRun_bad_true (eqBy f) mr t (some a)

/-! ### Per-name behavior of the multi-producer merge -/

theorem mergeEntities_spec {α : Type} (mg : α → α → Bool) (mr : α → α → α)
    (l : List (String × α)) (n : String) :
    (lookupA (mergeEntities mg mr l) n, countKey (mergeEntities mg mr l) n) =
      (if (keyRun mg mr none false (contribsFor l n)).2 then (none, 0)
       else ((keyRun mg mr none false (contribsFor l n)).1,
             optCount (keyRun mg mr none false (contribsFor l n)).1)) := by
  have hloc := foldl_mergeStep_loc mg mr n l ⟨[], []⟩
  have hcount := foldl_mergeStep_count mg mr n l ⟨[], []⟩ (by simp [countKey, lookupA, optCount])
  simp only [lookupA, anyKey, List.any_nil] at hloc
  set st := l.foldl (mergeStep mg mr) (⟨[], []⟩ : MergeSt α) with hst
  have h1 : lookupA st.acc n = (keyRun mg mr none false (contribsFor l n)).1 := by
    rw [← hloc]
  have h2 : anyKey st.bad n = (keyRun mg mr none false (contribsFor l n)).2 := by
    rw [← hloc]
    rfl

  have hme : mergeEntities mg mr l = st.acc.filter (fun kv => !(anyKey st.bad kv.1)) := rfl
  rw [hme, lookupA_filter_key (fun k => !(anyKey st.bad k)) st.acc n,
    countKey_filter_key (fun k => !(anyKey st.bad k)) st.acc n]
  cases hflag : (keyRun mg mr none false (contribsFor l n)).2 with
  | true =>
      rw [hflag] at h2
      simp [h2]
  | false =>
      rw [hflag] at h2
      simp [h2, h1, hcount]

theorem mergeEntities_absent {α : Type} (mg : α → α → Bool) (mr : α → α → α)
    (l : List (String × α)) (n : String) (h : contribsFor l n = []) :
    lookupA (mergeEntities mg mr l) n = none := by
  have hs := mergeEntities_spec mg mr l n
  rw [h] at hs
  simp only [keyRun] at hs
  simp [optCount] at hs
  exact hs.1

theorem mergeEntities_agree {α β : Type} [DecidableEq β] (f : α → β) (mr : α → α → α)
    (hmr : ∀ a b, f (mr a b) = f a)
    (l : List (String × α)) (n : String) (c : α) (cs : List α)
    (hc : contribsFor l n = c :: cs) (hall : ∀ x ∈ cs, f x = f c) :
    lookupA (mergeEntities (eqBy f) mr l) n = some (cs.foldl mr c) ∧
    countKey (mergeEntities (eqBy f) mr l) n = 1 := by
  have hs := mergeEntities_spec (eqBy f) mr l n
  rw [hc] at hs
  rw [show keyRun (eqBy f) mr none false (c :: cs) =
        keyRun (eqBy f) mr (some c) false cs from rfl] at hs
  rw [keyRun_all_eq f mr hmr cs c false hall] at hs
  simp [optCount] at hs
  exact hs

theorem mergeEntities_conflict {α β : Type} [DecidableEq β] (f : α → β) (mr : α → α → α)
    (hmr : ∀ a b, f (mr a b) = f a)
    (l : List (String × α)) (n : String) (c : α) (cs : List α)
    (hc : contribsFor l n = c :: cs) (hex : ∃ x ∈ cs, f x ≠ f c) :
    lookupA (mergeEntities (eqBy f) mr l) n = none ∧
    countKey (mergeEntities (eqBy f) mr l) n = 0 := by
  have hs := mergeEntities_spec (eqBy f) mr l n
  rw [hc] at hs
  rw [show keyRun (eqBy f) mr none false (c :: cs) =
        keyRun (eqBy f) mr (some c) false cs from rfl] at hs
  rw [if_pos (keyRun_conflict f mr hmr cs c false hex)] at hs
  exact Prod.mk.injEq _ _ _ _ ▸ hs

/-- Turn a pairwise conflict among the contributions into a conflict with
the first contribution. -/
theorem pairwise_to_head {α β : Type} (f : α → β) (c : α) (cs : List α)
    (h : ∃ a ∈ c :: cs, ∃ b ∈ c :: cs, f a ≠ f b) : ∃ x ∈ cs, f x ≠ f c := by
  rcases h with ⟨a, ha, b, hb, hne⟩
  by_cases hfa : f a = f c
  · have hfb : f b ≠ f c := by
      intro hbc
      exact hne (hfa.trans hbc.symm)
    rcases List.mem_cons.mp hb with h1 | h1
    · exfalso
      rw [h1] at hfb
      exact hfb rfl
    · exact ⟨b, h1, hfb⟩
  · rcases List.mem_cons.mp ha with h1 | h1
    · exfalso
      rw [h1] at hfa
      exact hfa rfl
    · exact ⟨a, h1, hfa⟩

theorem foldl_keepFirst {α : Type} (c : α) (cs : List α) : cs.foldl keepFirst c = c := by
  induction cs with
  | nil => rfl
  | cons x t ih => exact ih

theorem foldl_svcMerge (c : Service) (cs : List Service) :
    cs.foldl svcMerge c =
      ⟨⟨c.loadBalancer.servers ++ (cs.map (fun s => s.loadBalancer.servers)).flatten,
        c.loadBalancer.passHostHeader⟩⟩ := by
  induction cs generalizing c with
  | nil => simp
  | cons x t ih =>
      rw [List.foldl_cons, ih]
      simp [svcMerge]

/-! ### Pipeline lemmas -/

theorem foldl_mergeStep_preserve {α : Type} (mg : α → α → Bool) (mr : α → α → α)
    (P : α → Prop) (hmr : ∀ a b, P a → P b → P (mr a b)) :
    ∀ (l : List (String × α)) (st : MergeSt α),
      (∀ kv ∈ st.acc, P kv.2) → (∀ kv ∈ l, P kv.2) →
      ∀ kv ∈ (l.foldl (mergeStep mg mr) st).acc, P kv.2 := by
  intro l
  induction l with
  | nil =>
      intro st hacc _ kv hkv
      exact hacc kv hkv
  | cons hd t ih =>
      intro st hacc hl kv hkv
      rw [List.foldl_cons] at hkv
      rcases hd with ⟨k, v⟩
      have hv : P v := hl (k, v) (List.mem_cons_self _ _)
      have hl2 : ∀ kv ∈ t, P kv.2 := fun kv hm => hl kv (List.mem_cons_of_mem _ hm)
      cases hcur : lookupA st.acc k with
      | none =>
          have hstep : mergeStep mg mr st (k, v) = ⟨st.acc ++ [(k, v)], st.bad⟩ := by
            simp [mergeStep, hcur]
          rw [hstep] at hkv
          refine ih ⟨st.acc ++ [(k, v)], st.bad⟩ ?_ hl2 kv hkv
          intro kv2 hm
          rcases List.mem_append.mp hm with h1 | h1
          · exact hacc kv2 h1
          · have : kv2 = (k, v) := by simpa using h1
            rw [this]
            exact hv
      | some old =>
          have hold : P old := hacc (k, old) (lookupA_mem _ _ _ hcur)
          by_cases hmg : mg old v
          · have hstep : mergeStep mg mr st (k, v) =
                ⟨updateA st.acc k (mr old v), st.bad⟩ := by
              simp [mergeStep, hcur, hmg]
            rw [hstep] at hkv
            refine ih ⟨updateA st.acc k (mr old v), st.bad⟩ ?_ hl2 kv hkv
            intro kv2 hm
            rcases mem_updateA st.acc k (mr old v) kv2 hm with h1 | h1
            · exact hacc kv2 h1
            · rw [h1]
              exact hmr old v hold hv
          · have hstep : mergeStep mg mr st (k, v) = ⟨st.acc, k :: st.bad⟩ := by
              simp [mergeStep, hcur, hmg]
            rw [hstep] at hkv
            exact ih ⟨st.acc, k :: st.bad⟩ hacc hl2 kv hkv

theorem mergeEntities_preserve {α : Type} (mg : α → α → Bool) (mr : α → α → α)
    (P : α → Prop) (hmr : ∀ a b, P a → P b → P (mr a b))
    (l : List (String × α)) (hl : ∀ kv ∈ l, P kv.2) :
    ∀ kv ∈ mergeEntities mg mr l, P kv.2 := by
  intro kv hkv
  have hkv2 : kv ∈ (l.foldl (mergeStep mg mr) ⟨[], []⟩).acc.filter
      (fun kv => !(anyKey (l.foldl (mergeStep mg mr) ⟨[], []⟩).bad kv.1)) := hkv
  exact foldl_mergeStep_preserve mg mr P hmr l ⟨[], []⟩ (by simp) hl kv
    (List.mem_of_mem_filter hkv2)

theorem buildContainer_not_kept (p : Provider) (c : DockerData)
    (h : keepContainer p c = false) : buildContainer p c = none := by
  simp [buildContainer, h]

theorem buildConfiguration_skip (p : Provider) (pre post : List DockerData)
    (c : DockerData) (h : buildContainer p c = none) :
    buildConfiguration p (pre ++ c :: post) = buildConfiguration p (pre ++ post) := by
  unfold buildConfiguration
  rw [List.filterMap_append, List.filterMap_append, List.filterMap_cons, h]

theorem addServer_nonempty (c : DockerData) (lb lb2 : LoadBalancer)
    (h : addServer c lb = some lb2) : lb2.servers ≠ [] := by
  unfold addServer at h
  split at h
  · simp at h
  · split at h <;> (injection h with h2; rw [← h2]; simp)

theorem addServerTCP_nonempty (c : DockerData) (lb lb2 : TCPLoadBalancer)
    (h : addServerTCP c lb = some lb2) : lb2.servers ≠ [] := by
  unfold addServerTCP at h
  split at h
  · simp at h
  · split at h <;> (injection h with h2; rw [← h2]; simp)

theorem resolveServices_nonempty (c : DockerData) :
    ∀ (svcs l : List (String × Service)), resolveServices c svcs = some l →
      ∀ kv ∈ l, kv.2.loadBalancer.servers ≠ [] := by
  intro svcs
  induction svcs with
  | nil =>
      intro l h kv hkv
      simp only [resolveServices] at h
      injection h with h2
      rw [← h2] at hkv
      simp at hkv
  | cons hd t ih =>
      intro l h kv hkv
      rcases hd with ⟨n, sv⟩
      cases hadd : addServer c sv.loadBalancer with
      | none =>
          simp only [resolveServices, hadd] at h
          exact Option.noConfusion h
      | some lb =>
          cases hrest : resolveServices c t with
          | none =>
              simp only [resolveServices, hadd, hrest] at h
              exact Option.noConfusion h
          | some t2 =>
              simp only [resolveServices, hadd, hrest] at h
              injection h with h2
              rw [← h2] at hkv
              rcases List.mem_cons.mp hkv with h3 | h3
              · rw [h3]
                exact addServer_nonempty c _ _ hadd
              · exact ih t2 hrest kv h3

theorem resolveTCPServices_nonempty (c : DockerData) :
    ∀ (svcs l : List (String × TCPService)), resolveTCPServices c svcs = some l →
      ∀ kv ∈ l, kv.2.loadBalancer.servers ≠ [] := by
  intro svcs
  induction svcs with
  | nil =>
      intro l h kv hkv
      simp only [resolveTCPServices] at h
      injection h with h2
      rw [← h2] at hkv
      simp at hkv
  | cons hd t ih =>
      intro l h kv hkv
      rcases hd with ⟨n, sv⟩
      cases hadd : addServerTCP c sv.loadBalancer with
      | none =>
          simp only [resolveTCPServices, hadd] at h
          exact Option.noConfusion h
      | some lb =>
          cases hrest : resolveTCPServices c t with
          | none =>
              simp only [resolveTCPServices, hadd, hrest] at h
              exact Option.noConfusion h
          | some t2 =>
              simp only [resolveTCPServices, hadd, hrest] at h
              injection h with h2
              rw [← h2] at hkv
              rcases List.mem_cons.mp hkv with h3 | h3
              · rw [h3]
                exact addServerTCP_nonempty c _ _ hadd
              · exact ih t2 hrest kv h3

theorem buildServiceConfiguration_nonempty (c : DockerData)
    (conf conf2 : HTTPConfiguration)
    (h : buildServiceConfiguration c conf = some conf2) :
    ∀ kv ∈ conf2.services, kv.2.loadBalancer.servers ≠ [] := by
  simp only [buildServiceConfiguration] at h
  cases hres : resolveServices c
      (if conf.services = [] then [(c.serviceName, defaultDecodedService)]
       else conf.services) with
  | none => rw [hres] at h; simp at h
  | some l =>
      rw [hres] at h
      simp only [Option.some.injEq] at h
      intro kv hkv
      rw [← h] at hkv
      exact resolveServices_nonempty c _ l hres kv hkv

theorem buildTCPServiceConfiguration_nonempty (c : DockerData)
    (conf conf2 : TCPConfiguration)
    (h : buildTCPServiceConfiguration c conf = some conf2) :
    ∀ kv ∈ conf2.services, kv.2.loadBalancer.servers ≠ [] := by
  simp only [buildTCPServiceConfiguration] at h
  cases hres : resolveTCPServices c
      (if conf.services = [] then [(c.serviceName, defaultDecodedTCPService)]
       else conf.services) with
  | none => rw [hres] at h; simp at h
  | some l =>
      rw [hres] at h
      simp only [Option.some.injEq] at h
      intro kv hkv
      rw [← h] at hkv
      exact resolveTCPServices_nonempty c _ l hres kv hkv

theorem buildRouterConfiguration_services (tpl : Tmpl) (m : TmplModel) (dn : String)
    (conf : HTTPConfiguration) :
    (buildRouterConfiguration tpl m dn conf).services = conf.services := rfl

theorem buildTCPRouterConfiguration_services (conf : TCPConfiguration) :
    (buildTCPRouterConfiguration conf).services = conf.services := rfl

theorem buildContainer_services_nonempty (p : Provider) (c : DockerData)
    (conf : Configuration) (h : buildContainer p c = some conf) :
    (∀ kv ∈ conf.http.services, kv.2.loadBalancer.servers ≠ []) ∧
    (∀ kv ∈ conf.tcp.services, kv.2.loadBalancer.servers ≠ []) := by
  cases hkeep : keepContainer p c with
  | false =>
      simp only [buildContainer, hkeep] at h
      exact Option.noConfusion h
  | true =>
      simp only [buildContainer, hkeep, if_true] at h
      cases hdec : decodeLabels c.labels with
      | none =>
          simp only [hdec] at h
          exact Option.noConfusion h
      | some dc =>
          simp only [hdec] at h
          by_cases htcp : dc.tcp.routers ≠ [] ∨ dc.tcp.services ≠ []
          · rw [if_pos htcp] at h
            cases htcp1 : buildTCPServiceConfiguration c dc.tcp with
            | none =>
                simp only [htcp1] at h
                exact Option.noConfusion h
            | some tcp1 =>
                simp only [htcp1] at h
                have htcpgood : ∀ kv ∈ (buildTCPRouterConfiguration tcp1).services,
                    kv.2.loadBalancer.servers ≠ [] := by
                  rw [buildTCPRouterConfiguration_services]
                  exact buildTCPServiceConfiguration_nonempty c dc.tcp tcp1 htcp1
                by_cases hhttp : dc.http.routers = [] ∧ dc.http.middlewares = [] ∧
                    dc.http.services = []
                · rw [if_pos hhttp] at h
                  injection h with h2
                  rw [← h2]
                  constructor
                  · intro kv hkv
                    have hkv2 : kv ∈ dc.http.services := hkv
                    rw [hhttp.2.2] at hkv2
                    simp at hkv2
                  · exact htcpgood
                · rw [if_neg hhttp] at h
                  cases hh1 : buildServiceConfiguration c dc.http with
                  | none =>
                      simp only [hh1] at h
                      exact Option.noConfusion h
                  | some h1 =>
                      simp only [hh1] at h
                      injection h with h2
                      rw [← h2]
                      constructor
                      · intro kv hkv
                        have hkv2 : kv ∈ h1.services := by
                          have := buildRouterConfiguration_services p.defaultRule
                            ⟨c.serviceName, c.labels⟩ c.serviceName h1
                          rw [← this]
                          exact hkv
                        exact buildServiceConfiguration_nonempty c dc.http h1 hh1 kv hkv2
                      · exact htcpgood
          · rw [if_neg htcp] at h
            cases hh1 : buildServiceConfiguration c dc.http with
            | none =>
                simp only [hh1] at h
                exact Option.noConfusion h
            | some h1 =>
                simp only [hh1] at h
                injection h with h2
                rw [← h2]
                constructor
                · intro kv hkv
                  have hkv2 : kv ∈ h1.services := by
                    have := buildRouterConfiguration_services p.defaultRule
                      ⟨c.serviceName, c.labels⟩ c.serviceName h1
                    rw [← this]
                    exact hkv
                  exact buildServiceConfiguration_nonempty c dc.http h1 hh1 kv hkv2
                · intro kv hkv
                  have hkv2 : kv ∈ dc.tcp.services := hkv
                  push_neg at htcp
                  rw [htcp.2] at hkv2
                  simp at hkv2

theorem buildConfiguration_http_services_nonempty (p : Provider) (cs : List DockerData)
    (n : String) (sv : Service)
    (h : lookupA (buildConfiguration p cs).http.services n = some sv) :
    sv.loadBalancer.servers ≠ [] := by
  have hmem : (n, sv) ∈ mergeServices
      (((cs.filterMap (buildContainer p)).map (fun c => c.http.services)).flatten) :=
    lookupA_mem _ _ _ h
  refine mergeEntities_preserve _ _ (fun s => s.loadBalancer.servers ≠ []) ?_ _ ?_ (n, sv) hmem
  · intro a b ha _hb
    cases hsa : a.loadBalancer.servers with
    | nil => exact absurd hsa ha
    | cons x t => simp [svcMerge, hsa]
  · intro kv hkv
    rcases List.mem_flatten.mp hkv with ⟨sub, hsub, hkvsub⟩
    rcases List.mem_map.mp hsub with ⟨conf, hconf, hconfeq⟩
    rcases List.mem_filterMap.mp hconf with ⟨c, _hc, hbc⟩
    rw [← hconfeq] at hkvsub
    exact (buildContainer_services_nonempty p c conf hbc).1 kv hkvsub

theorem buildConfiguration_tcp_services_nonempty (p : Provider) (cs : List DockerData)
    (n : String) (sv : TCPService)
    (h : lookupA (buildConfiguration p cs).tcp.services n = some sv) :
    sv.loadBalancer.servers ≠ [] := by
  have hmem : (n, sv) ∈ mergeTCPServices
      (((cs.filterMap (buildContainer p)).map (fun c => c.tcp.services)).flatten) :=
    lookupA_mem _ _ _ h
  refine mergeEntities_preserve _ _ (fun s => s.loadBalancer.servers ≠ []) ?_ _ ?_ (n, sv) hmem
  · intro a b ha _hb
    cases hsa : a.loadBalancer.servers with
    | nil => exact absurd hsa ha
    | cons x t => simp [tcpSvcMerge, hsa]
  · intro kv hkv
    rcases List.mem_flatten.mp hkv with ⟨sub, hsub, hkvsub⟩
    rcases List.mem_map.mp hsub with ⟨conf, hconf, hconfeq⟩
    rcases List.mem_filterMap.mp hconf with ⟨c, _hc, hbc⟩
    rw [← hconfeq] at hkvsub
    exact (buildContainer_services_nonempty p c conf hbc).2 kv hkvsub

/-! ### Concrete scenario inputs pinned by the repository's tests -/

/-- The default rule template of `Test_buildConfiguration`. -/
def tmplWtf : Tmpl := .seq (.lit "Host(`") (.seq .normName (.lit ".traefik.wtf`)"))

/-- The provider configuration of `Test_buildConfiguration`. -/
def provWtf : Provider := ⟨true, tmplWtf, []⟩

/-- A container labelled with a pass-host-header value for `Service1`
(config_test.go lines 801-858). -/
def ctPassHost (id addr v : String) : DockerData :=
  ⟨id, "Test", "Test",
   [("traefik.http.services.Service1.loadbalancer.passhostheader", v)], addr, [80], ""⟩

/-- Boolean label literal. -/
def boolLit (b : Bool) : String := if b then "true" else "false"

/-- The default rule template of the spec scenario in section 8. -/
def tmplFooBar : Tmpl := .seq (.lit "Host(`") (.seq .varName (.lit ".foo.bar`)"))

/-- The provider configuration of `TestDefaultRule` (lines 74-121). -/
def provFooBar : Provider := ⟨true, tmplFooBar, []⟩

/-- The label-free container used throughout `TestDefaultRule`. -/
def ctPlain : DockerData := ⟨"", "Test", "Test", [], "127.0.0.1", [80], ""⟩

/-- Expected output of the spec scenario: one synthesized router and one
synthetic service. -/
def confDefaultRouter : Configuration :=
  ⟨⟨[("Test", ⟨"Host(`Test.foo.bar`)", "Test", []⟩)], [],
    [("Test", ⟨⟨[⟨"http://127.0.0.1:80", "", ""⟩], true⟩⟩)]⟩, ⟨[], []⟩⟩

/-- A default rule template referencing an unknown field (`TestDefaultRule`,
invalid rule, lines 174-216). -/
def provBadTmpl : Provider := ⟨true, .seq (.lit "Host(") (.seq .badRef (.lit ")")), []⟩

/-- An empty default rule template (`TestDefaultRule`, undefined rule,
lines 217-260). -/
def provEmptyTmpl : Provider := ⟨true, .lit "", []⟩

/-- Expected output when the template fails: the service alone. -/
def confServiceOnly : Configuration :=
  ⟨⟨[], [], [("Test", ⟨⟨[⟨"http://127.0.0.1:80", "", ""⟩], true⟩⟩)]⟩, ⟨[], []⟩⟩

/-- The container of the `tcp with label` test (lines 2065-2114). -/
def ctTCPLabels : DockerData :=
  ⟨"", "Test", "Test",
   [("traefik.tcp.routers.foo.rule", "HostSNI(`foo.bar`)"),
    ("traefik.tcp.routers.foo.tls", "true")], "127.0.0.1", [80], ""⟩

/-- Expected output of the `tcp with label` test. -/
def confTCPScenario : Configuration :=
  ⟨⟨[], [], []⟩,
   ⟨[("foo", ⟨"HostSNI(`foo.bar`)", "Test", true⟩)],
    [("Test", ⟨⟨[⟨"127.0.0.1:80", ""⟩]⟩⟩)]⟩⟩

/-- The container of the `one container without port with middleware` test
(lines 1806-1836). -/
def ctMwNoPort : DockerData :=
  ⟨"", "Test", "Test",
   [("traefik.http.middlewares.Middleware1.maxconn.amount", "42")], "127.0.0.1", [], ""⟩

/-- The container of the `one container without port` test (lines 1776-1805). -/
def ctNoPort : DockerData := ⟨"", "Test", "Test", [], "127.0.0.1", [], ""⟩

/-! ### Claims -/

/-- Claim C1, counterexample: in the two-instance scenario with conflicting
pass-host-header definitions for Service1, the built Service map has no
entry for Service1, yet the default Router referencing Service1 is present
in the output, contradicting the claim that such Routers are dropped
(pinned by config_test.go lines 842-857, which expect the router). -/
theorem claim_C1_counterexample :
    lookupA (buildConfiguration provWtf
      [ctPassHost "1" "127.0.0.1" "true",
       ctPassHost "2" "127.0.0.2" "false"]).http.services "Service1" = none ∧
    lookupA (buildConfiguration provWtf
      [ctPassHost "1" "127.0.0.1" "true",
       ctPassHost "2" "127.0.0.2" "false"]).http.routers "Test" =
      some ⟨"Host(`Test.traefik.wtf`)", "Service1", []⟩ :=
  ⟨rfl, rfl⟩

/-- Claim C1, amended: the assembly performs no reference resolution; in
the two-instance Service1 scenario the default Router referencing Service1
is present in the output for every combination of the two pass-host-header
label values, while Service1 itself is present exactly when the two
definitions agree. -/
theorem claim_C1_amended (b1 b2 : Bool) :
    lookupA (buildConfiguration provWtf
      [ctPassHost "1" "127.0.0.1" (boolLit b1),
       ctPassHost "2" "127.0.0.2" (boolLit b2)]).http.routers "Test" =
      some ⟨"Host(`Test.traefik.wtf`)", "Service1", []⟩ ∧
    (lookupA (buildConfiguration provWtf
      [ctPassHost "1" "127.0.0.1" (boolLit b1),
       ctPassHost "2" "127.0.0.2" (boolLit b2)]).http.services "Service1" = none ↔
      b1 ≠ b2) := by
  cases b1 <;> cases b2 <;> exact ⟨rfl, by decide⟩

/-- Witness for the amended claim C1 at the conflicting pair of labels. -/
theorem claim_C1_amended_witness :
    lookupA (buildConfiguration provWtf
      [ctPassHost "1" "127.0.0.1" (boolLit true),
       ctPassHost "2" "127.0.0.2" (boolLit false)]).http.routers "Test" =
      some ⟨"Host(`Test.traefik.wtf`)", "Service1", []⟩ ∧
    (lookupA (buildConfiguration provWtf
      [ctPassHost "1" "127.0.0.1" (boolLit true),
       ctPassHost "2" "127.0.0.2" (boolLit false)]).http.services "Service1" = none ↔
      true ≠ false) :=
  claim_C1_amended true false

/-- Claim C8: an instance with the tcp router rule and tls labels but no
tcp service port label yields TCP Router `foo` carrying the TLS marker,
whose Service is a TCP Service named after the instance built from the
instance's default discovered endpoint (config_test.go lines 2065-2114). -/
theorem claim_C8_tcp_router_with_tls :
    buildConfiguration provWtf [ctTCPLabels] = confTCPScenario :=
  rfl

/-! ### Conflict-rule helpers specialised to the builder's merge relations -/

theorem mergeKeepFirst_conflict {α : Type} [DecidableEq α]
    (l : List (String × α)) (n : String)
    (h : ∃ a ∈ contribsFor l n, ∃ b ∈ contribsFor l n, a ≠ b) :
    lookupA (mergeEntities (eqBy (fun x : α => x)) keepFirst l) n = none := by
  obtain ⟨a, ha, b, hb, hne⟩ := h
  obtain ⟨c, cs, hc⟩ := List.exists_cons_of_ne_nil
    (show contribsFor l n ≠ [] by
      intro hnil
      rw [hnil] at ha
      simp at ha)
  have hex : ∃ x ∈ cs, x ≠ c := by
    have hp := pairwise_to_head (fun x : α => x) c cs
      (by rw [← hc]; exact ⟨a, ha, b, hb, hne⟩)
    exact hp
  exact (mergeEntities_conflict (fun x : α => x) keepFirst (fun _ _ => rfl)
    l n c cs hc hex).1

theorem mergeKeepFirst_agree {α : Type} [DecidableEq α]
    (l : List (String × α)) (n : String)
    (h1 : contribsFor l n ≠ [])
    (h2 : ∀ a ∈ contribsFor l n, ∀ b ∈ contribsFor l n, a = b) :
    countKey (mergeEntities (eqBy (fun x : α => x)) keepFirst l) n = 1 ∧
    ∀ a ∈ contribsFor l n,
      lookupA (mergeEntities (eqBy (fun x : α => x)) keepFirst l) n = some a := by
  obtain ⟨c, cs, hc⟩ := List.exists_cons_of_ne_nil h1
  have hcmem : c ∈ contribsFor l n := by
    rw [hc]
    exact List.mem_cons_self _ _
  have hall : ∀ x ∈ cs, x = c := by
    intro x hx
    exact h2 x (by rw [hc]; exact List.mem_cons_of_mem _ hx) c hcmem
  have hm := mergeEntities_agree (fun x : α => x) keepFirst (fun _ _ => rfl)
    l n c cs hc hall
  rw [foldl_keepFirst] at hm
  refine ⟨hm.2, ?_⟩
  intro a ha
  rw [hm.1, h2 a ha c hcmem]

theorem mergeServices_conflict (l : List (String × Service)) (n : String)
    (h : ∃ a ∈ contribsFor l n, ∃ b ∈ contribsFor l n, svcStrip a ≠ svcStrip b) :
    lookupA (mergeServices l) n = none := by
  obtain ⟨a, ha, b, hb, hne⟩ := h
  obtain ⟨c, cs, hc⟩ := List.exists_cons_of_ne_nil
    (show contribsFor l n ≠ [] by
      intro hnil
      rw [hnil] at ha
      simp at ha)
  have hex : ∃ x ∈ cs, svcStrip x ≠ svcStrip c :=
    pairwise_to_head svcStrip c cs (by rw [← hc]; exact ⟨a, ha, b, hb, hne⟩)
  exact (mergeEntities_conflict svcStrip svcMerge (fun _ _ => rfl) l n c cs hc hex).1

theorem mergeServices_agree (l : List (String × Service)) (n : String)
    (c : Service) (cs : List Service)
    (hc : contribsFor l n = c :: cs)
    (hall : ∀ a ∈ contribsFor l n, svcStrip a = svcStrip c) :
    lookupA (mergeServices l) n =
      some ⟨⟨((contribsFor l n).map (fun s => s.loadBalancer.servers)).flatten,
             c.loadBalancer.passHostHeader⟩⟩ ∧
    countKey (mergeServices l) n = 1 := by
  have hall2 : ∀ x ∈ cs, svcStrip x = svcStrip c := by
    intro x hx
    exact hall x (by rw [hc]; exact List.mem_cons_of_mem _ hx)
  have hm := mergeEntities_agree svcStrip svcMerge (fun _ _ => rfl) l n c cs hc hall2
  rw [foldl_svcMerge] at hm
  rw [hc]
  simpa using hm

theorem mergeTCPServices_one (l : List (String × TCPService)) (n : String)
    (h1 : contribsFor l n ≠ []) :
    countKey (mergeTCPServices l) n = 1 := by
  obtain ⟨c, cs, hc⟩ := List.exists_cons_of_ne_nil h1
  exact (mergeEntities_agree tcpSvcStrip tcpSvcMerge (fun _ _ => rfl) l n c cs hc
    (fun _ _ => rfl)).2

/-- Claim C2: for every entity kind and name, contributions that disagree
(on an HTTP service, disagreement of the non-server portion, spec 4.5 step
3) exclude the entity entirely from the merged map with no tie-break, and
agreeing contributions deduplicate to exactly one entity under that name. -/
theorem claim_C2_fail_closed_conflict :
    (∀ (l : List (String × Router)) (n : String),
      ((∃ a ∈ contribsFor l n, ∃ b ∈ contribsFor l n, a ≠ b) →
        lookupA (mergeRouters l) n = none) ∧
      ((contribsFor l n ≠ [] ∧ ∀ a ∈ contribsFor l n, ∀ b ∈ contribsFor l n, a = b) →
        countKey (mergeRouters l) n = 1 ∧
        ∀ a ∈ contribsFor l n, lookupA (mergeRouters l) n = some a)) ∧
    (∀ (l : List (String × Middleware)) (n : String),
      ((∃ a ∈ contribsFor l n, ∃ b ∈ contribsFor l n, a ≠ b) →
        lookupA (mergeMiddlewares l) n = none) ∧
      ((contribsFor l n ≠ [] ∧ ∀ a ∈ contribsFor l n, ∀ b ∈ contribsFor l n, a = b) →
        countKey (mergeMiddlewares l) n = 1 ∧
        ∀ a ∈ contribsFor l n, lookupA (mergeMiddlewares l) n = some a)) ∧
    (∀ (l : List (String × Service)) (n : String),
      ((∃ a ∈ contribsFor l n, ∃ b ∈ contribsFor l n, svcStrip a ≠ svcStrip b) →
        lookupA (mergeServices l) n = none) ∧
      ((contribsFor l n ≠ [] ∧
        ∀ a ∈ contribsFor l n, ∀ b ∈ contribsFor l n, svcStrip a = svcStrip b) →
        countKey (mergeServices l) n = 1)) ∧
    (∀ (l : List (String × TCPRouter)) (n : String),
      ((∃ a ∈ contribsFor l n, ∃ b ∈ contribsFor l n, a ≠ b) →
        lookupA (mergeTCPRouters l) n = none) ∧
      ((contribsFor l n ≠ [] ∧ ∀ a ∈ contribsFor l n, ∀ b ∈ contribsFor l n, a = b) →
        countKey (mergeTCPRouters l) n = 1 ∧
        ∀ a ∈ contribsFor l n, lookupA (mergeTCPRouters l) n = some a)) ∧
    (∀ (l : List (String × TCPService)) (n : String),
      contribsFor l n ≠ [] → countKey (mergeTCPServices l) n = 1) := by
  refine ⟨?_, ?_, ?_, ?_, ?_⟩
  · intro l n
    exact ⟨mergeKeepFirst_conflict l n, fun h => mergeKeepFirst_agree l n h.1 h.2⟩
  · intro l n
    exact ⟨mergeKeepFirst_conflict l n, fun h => mergeKeepFirst_agree l n h.1 h.2⟩
  · intro l n
    refine ⟨mergeServices_conflict l n, ?_⟩
    intro h
    obtain ⟨c, cs, hc⟩ := List.exists_cons_of_ne_nil h.1
    have hcmem : c ∈ contribsFor l n := by
      rw [hc]
      exact List.mem_cons_self _ _
    exact (mergeServices_agree l n c cs hc (fun a ha => h.2 a ha c hcmem)).2
  · intro l n
    exact ⟨mergeKeepFirst_conflict l n, fun h => mergeKeepFirst_agree l n h.1 h.2⟩
  · intro l n
    exact mergeTCPServices_one l n

/-- Witness for claim C2: two unequal middleware definitions under one name
are both dropped, and two equal router definitions deduplicate to one. -/
theorem claim_C2_witness :
    lookupA (mergeMiddlewares
      [("m", .maxConn 42 "request.host"), ("m", .maxConn 41 "request.host")]) "m" = none ∧
    countKey (mergeRouters
      [("r", ⟨"Host(`a`)", "s", []⟩), ("r", ⟨"Host(`a`)", "s", []⟩)]) "r" = 1 := by
  constructor
  · exact (claim_C2_fail_closed_conflict.2.1
      [("m", .maxConn 42 "request.host"), ("m", .maxConn 41 "request.host")] "m").1
      ⟨.maxConn 42 "request.host", by decide, .maxConn 41 "request.host", by decide,
        by decide⟩
  · exact ((claim_C2_fail_closed_conflict.1
      [("r", ⟨"Host(`a`)", "s", []⟩), ("r", ⟨"Host(`a`)", "s", []⟩)] "r").2
      ⟨by decide, by decide⟩).1

/-- Claim C3: when every contribution for a service name agrees on the
non-server portion, the merged map holds exactly one Service under that
name, and its server list is the concatenation, in input order, of the
contributions' server lists (spec 4.5 step 3: stable, never sorted). -/
theorem claim_C3_service_server_union (l : List (String × Service)) (n : String)
    (c : Service) (cs : List Service)
    (hc : contribsFor l n = c :: cs)
    (hall : ∀ a ∈ contribsFor l n, svcStrip a = svcStrip c) :
    countKey (mergeServices l) n = 1 ∧
    lookupA (mergeServices l) n =
      some ⟨⟨((contribsFor l n).map (fun s => s.loadBalancer.servers)).flatten,
             c.loadBalancer.passHostHeader⟩⟩ := by
  have hm := mergeServices_agree l n c cs hc hall
  exact ⟨hm.2, hm.1⟩

/-- Witness for claim C3: two contributions for `Service1` with equal
non-server portions merge into one Service listing both endpoints in input
order. -/
theorem claim_C3_witness :
    countKey (mergeServices
      [("Service1", ⟨⟨[⟨"http://127.0.0.1:80", "", ""⟩], true⟩⟩),
       ("Service1", ⟨⟨[⟨"http://127.0.0.2:80", "", ""⟩], true⟩⟩)]) "Service1" = 1 ∧
    lookupA (mergeServices
      [("Service1", ⟨⟨[⟨"http://127.0.0.1:80", "", ""⟩], true⟩⟩),
       ("Service1", ⟨⟨[⟨"http://127.0.0.2:80", "", ""⟩], true⟩⟩)]) "Service1" =
      some ⟨⟨[⟨"http://127.0.0.1:80", "", ""⟩, ⟨"http://127.0.0.2:80", "", ""⟩], true⟩⟩ := by
  have h := claim_C3_service_server_union
    [("Service1", ⟨⟨[⟨"http://127.0.0.1:80", "", ""⟩], true⟩⟩),
     ("Service1", ⟨⟨[⟨"http://127.0.0.2:80", "", ""⟩], true⟩⟩)] "Service1"
    ⟨⟨[⟨"http://127.0.0.1:80", "", ""⟩], true⟩⟩
    [⟨⟨[⟨"http://127.0.0.2:80", "", ""⟩], true⟩⟩] rfl (by decide)
  exact ⟨h.1, h.2⟩

/-- Claim C4: an eligible instance that declares no explicit router and has
one (explicit or synthesized) service, with a successfully evaluated,
nonempty rule template, gets exactly one synthesized Router keyed by the
instance name, referencing that service, with the evaluated rule; and the
spec scenario (instance Test, template producing Host(`Test.foo.bar`))
yields exactly the expected Configuration (TestDefaultRule lines 74-121). -/
theorem claim_C4_default_router_synthesis :
    (∀ (tpl : Tmpl) (m : TmplModel) (dname : String) (conf : HTTPConfiguration)
       (sn : String) (sv : Service) (r : String),
       conf.routers = [] → conf.services = [(sn, sv)] →
       evalTmpl tpl m = some r → r ≠ "" →
       (buildRouterConfiguration tpl m dname conf).routers = [(dname, ⟨r, sn, []⟩)]) ∧
    buildConfiguration provFooBar [ctPlain] = confDefaultRouter := by
  refine ⟨?_, rfl⟩
  intro tpl m dname conf sn sv r h1 h2 h3 h4
  simp [buildRouterConfiguration, h1, h2, fillRouter, defaultDecodedRouter, h3, h4]

/-- Witness for claim C4 at the spec scenario's template and a one-service
configuration. -/
theorem claim_C4_witness :
    (buildRouterConfiguration tmplFooBar ⟨"Test", []⟩ "Test"
      ⟨[], [], [("Test", defaultDecodedService)]⟩).routers =
      [("Test", ⟨"Host(`Test.foo.bar`)", "Test", []⟩)] :=
  claim_C4_default_router_synthesis.1 tmplFooBar ⟨"Test", []⟩ "Test"
    ⟨[], [], [("Test", defaultDecodedService)]⟩ "Test" defaultDecodedService
    "Host(`Test.foo.bar`)" rfl rfl rfl (by decide)

/-- Claim C5: a failing or empty rule template does not abort the build: it
suppresses only the synthesized default Router, leaving the declared
services untouched; and in the concrete invalid-template and
empty-template scenarios the Service is still built while the Router map
is empty (TestDefaultRule lines 174-260). -/
theorem claim_C5_template_failure_suppresses_router :
    (∀ (tpl : Tmpl) (m : TmplModel) (dname : String) (conf : HTTPConfiguration),
       conf.routers = [] →
       (evalTmpl tpl m = none ∨ evalTmpl tpl m = some "") →
       (buildRouterConfiguration tpl m dname conf).routers = [] ∧
       (buildRouterConfiguration tpl m dname conf).services = conf.services) ∧
    buildConfiguration provBadTmpl [ctPlain] = confServiceOnly ∧
    buildConfiguration provEmptyTmpl [ctPlain] = confServiceOnly := by
  refine ⟨?_, rfl, rfl⟩
  intro tpl m dname conf h1 h2
  refine ⟨?_, rfl⟩
  by_cases hlen : conf.services.length > 1
  · simp [buildRouterConfiguration, h1, hlen]
  · rcases h2 with h2 | h2 <;>
      simp [buildRouterConfiguration, h1, hlen, fillRouter, defaultDecodedRouter, h2]

/-- Witness for claim C5 at an unresolvable template reference and a
one-service configuration. -/
theorem claim_C5_witness :
    (buildRouterConfiguration .badRef ⟨"Test", []⟩ "Test"
      ⟨[], [], [("Test", defaultDecodedService)]⟩).routers = [] ∧
    (buildRouterConfiguration .badRef ⟨"Test", []⟩ "Test"
      ⟨[], [], [("Test", defaultDecodedService)]⟩).services =
      [("Test", defaultDecodedService)] :=
  claim_C5_template_failure_suppresses_router.1 .badRef ⟨"Test", []⟩ "Test"
    ⟨[], [], [("Test", defaultDecodedService)]⟩ rfl (Or.inl rfl)

/-- Claim C6: an instance without explicit service labels whose endpoint
resolution finds no port contributes no synthetic Service (it contributes
nothing at all), and no Service in any built Configuration, HTTP or TCP,
ever has an empty server list (spec 4.5 step 4). -/
theorem claim_C6_never_zero_server_service :
    (∀ (p : Provider) (c : DockerData) (dc : Configuration),
       decodeLabels c.labels = some dc → dc.http.services = [] →
       dc.tcp.routers = [] → dc.tcp.services = [] → c.ports = [] →
       buildContainer p c = none) ∧
    (∀ (p : Provider) (cs : List DockerData) (n : String) (sv : Service),
       lookupA (buildConfiguration p cs).http.services n = some sv →
       sv.loadBalancer.servers ≠ []) ∧
    (∀ (p : Provider) (cs : List DockerData) (n : String) (sv : TCPService),
       lookupA (buildConfiguration p cs).tcp.services n = some sv →
       sv.loadBalancer.servers ≠ []) := by
  refine ⟨?_, buildConfiguration_http_services_nonempty,
    buildConfiguration_tcp_services_nonempty⟩
  intro p c dc hdec hsvc htr hts hports
  cases hkeep : keepContainer p c with
  | false => simp [buildContainer, hkeep]
  | true =>
      simp only [buildContainer, hkeep, if_true, hdec]
      rw [if_neg (by simp [htr, hts])]
      have hadd : addServer c defaultDecodedService.loadBalancer = none := by
        simp [addServer, resolvedPort, getLBServerPort, defaultDecodedService,
          getPort, hports]
      have hfail : buildServiceConfiguration c dc.http = none := by
        simp [buildServiceConfiguration, hsvc, resolveServices, hadd]
      simp [hfail]

/-- Witness for claim C6: the portless, label-free container contributes
nothing, and the service of the plain scenario has a nonempty server
list. -/
theorem claim_C6_witness :
    buildContainer provWtf ctNoPort = none ∧
    (⟨⟨[⟨"http://127.0.0.1:80", "", ""⟩], true⟩⟩ : Service).loadBalancer.servers ≠ [] := by
  constructor
  · exact claim_C6_never_zero_server_service.1 provWtf ctNoPort emptyConf rfl rfl rfl rfl rfl
  · exact claim_C6_never_zero_server_service.2.1 provFooBar [ctPlain] "Test"
      ⟨⟨[⟨"http://127.0.0.1:80", "", ""⟩], true⟩⟩ rfl

/-- Claim C7: eligibility is the conjunction of the enable check (with the
explicit enable label overriding the exposed-by-default flag), the health
check, and the tag constraints; an ineligible instance contributes nothing
at all to the built Configuration. -/
theorem claim_C7_eligibility_conjunction :
    (∀ (p : Provider) (c : DockerData),
       keepContainer p c = true ↔
         (getEnable p c = true ∧ healthOK c = true ∧
          ∀ ct ∈ p.constraints, matchConstraint (getTags c) ct = true)) ∧
    (∀ (p : Provider) (c : DockerData) (v : String) (b : Bool),
       lookupA c.labels "traefik.enable" = some v → parseBool v = some b →
       getEnable p c = b) ∧
    (∀ (p : Provider) (c : DockerData),
       lookupA c.labels "traefik.enable" = none →
       getEnable p c = p.exposedByDefault) ∧
    (∀ (p : Provider) (pre post : List DockerData) (c : DockerData),
       keepContainer p c = false →
       buildConfiguration p (pre ++ c :: post) = buildConfiguration p (pre ++ post)) := by
  refine ⟨?_, ?_, ?_, ?_⟩
  · intro p c
    simp [keepContainer, Bool.and_eq_true, List.all_eq_true, and_assoc]
  · intro p c v b h1 h2
    simp [getEnable, h1, h2]
  · intro p c h1
    simp [getEnable, h1]
  · intro p pre post c h
    exact buildConfiguration_skip p pre post c (buildContainer_not_kept p c h)

/-- Witness for claim C7: the enable label set to false overrides the
exposed-by-default flag, and the disabled container drops out of the
build. -/
theorem claim_C7_witness :
    getEnable provWtf ⟨"", "Test", "Test", [("traefik.enable", "false")],
      "127.0.0.1", [80], ""⟩ = false ∧
    buildConfiguration provWtf
      ([] ++ ⟨"", "Test", "Test", [("traefik.enable", "false")],
        "127.0.0.1", [80], ""⟩ :: [ctPlain]) =
      buildConfiguration provWtf ([] ++ [ctPlain]) := by
  constructor
  · exact claim_C7_eligibility_conjunction.2.1 provWtf
      ⟨"", "Test", "Test", [("traefik.enable", "false")], "127.0.0.1", [80], ""⟩
      "false" false rfl rfl
  · exact claim_C7_eligibility_conjunction.2.2.2 provWtf [] [ctPlain]
      ⟨"", "Test", "Test", [("traefik.enable", "false")], "127.0.0.1", [80], ""⟩ rfl

/-- Claim C9: the file-loading collaborator accepts exactly two formats
selected by filename suffix: TOML via `.toml` and YAML via `.yml`/`.yaml`;
any other suffix yields the unsupported-extension error without invoking
any unmarshaller or the raw decoder (file_node.go lines 17-46). -/
theorem claim_C9_file_suffix_dispatch :
    (∀ (δ ν : Type) (tu yu : String → Except String δ) (dr : δ → Except String ν)
       (path content : String),
       fileExt path ≠ ".toml" → fileExt path ≠ ".yml" → fileExt path ≠ ".yaml" →
       decodeFileToNode tu yu dr path content =
         Except.error ("unsupported file extension: " ++ path)) ∧
    (∀ (δ ν : Type) (tu yu : String → Except String δ) (dr : δ → Except String ν)
       (path content : String),
       fileExt path = ".toml" →
       decodeFileToNode tu yu dr path content =
         (match tu content with
          | Except.error e => Except.error e
          | Except.ok d => dr d)) ∧
    (∀ (δ ν : Type) (tu yu : String → Except String δ) (dr : δ → Except String ν)
       (path content : String),
       fileExt path = ".yml" ∨ fileExt path = ".yaml" →
       decodeFileToNode tu yu dr path content =
         (match yu content with
          | Except.error e => Except.error e
          | Except.ok d => dr d)) := by
  refine ⟨?_, ?_, ?_⟩
  · intro δ ν tu yu dr path content h1 h2 h3
    simp only [decodeFileToNode]
  · intro δ ν tu yu dr path content h1
    simp [decodeFileToNode, h1]
  · intro δ ν tu yu dr path content h1
    rcases h1 with h1 | h1 <;> simp [decodeFileToNode, h1]

/-- Witness for claim C9: a `.txt` path errors without decoding, a `.toml`
path runs the TOML unmarshaller, and a `.yaml` path runs the YAML one. -/
theorem claim_C9_witness :
    decodeFileToNode (fun _ => Except.ok 1) (fun _ => Except.ok 2)
      (fun d => Except.ok (d + 10)) "traefik.txt" "x" =
      Except.error ("unsupported file extension: " ++ "traefik.txt") ∧
    decodeFileToNode (fun _ => Except.ok 1) (fun _ => Except.ok 2)
      (fun d => Except.ok (d + 10)) "traefik.toml" "x" = Except.ok 11 ∧
    decodeFileToNode (fun _ => Except.ok 1) (fun _ => Except.ok 2)
      (fun d => Except.ok (d + 10)) "traefik.yaml" "x" = Except.ok 12 := by
  refine ⟨?_, ?_, ?_⟩
  · exact claim_C9_file_suffix_dispatch.1 Nat Nat (fun _ => Except.ok 1)
      (fun _ => Except.ok 2) (fun d => Except.ok (d + 10)) "traefik.txt" "x"
      (by decide) (by decide) (by decide)
  · exact claim_C9_file_suffix_dispatch.2.1 Nat Nat (fun _ => Except.ok 1)
      (fun _ => Except.ok 2) (fun d => Except.ok (d + 10)) "traefik.toml" "x"
      (by decide)
  · exact claim_C9_file_suffix_dispatch.2.2 Nat Nat (fun _ => Except.ok 1)
      (fun _ => Except.ok 2) (fun d => Except.ok (d + 10)) "traefik.yaml" "x"
      (Or.inr (by decide))

/-- Claim C10: an instance whose per-instance build fails leaves the rest
of the build untouched; in particular when endpoint resolution finds no
port for any of its HTTP services (and it declares no TCP entities), the
instance contributes nothing at all, middlewares included; the concrete
middleware-labelled portless container yields the all-empty Configuration
(config_test.go lines 1806-1836). -/
theorem claim_C10_unresolved_endpoint_contributes_nothing :
    (∀ (p : Provider) (pre post : List DockerData) (c : DockerData),
       buildContainer p c = none →
       buildConfiguration p (pre ++ c :: post) = buildConfiguration p (pre ++ post)) ∧
    (∀ (p : Provider) (c : DockerData) (dc : Configuration),
       decodeLabels c.labels = some dc →
       dc.tcp.routers = [] → dc.tcp.services = [] → c.ports = [] →
       (∀ kv ∈ dc.http.services, getLBServerPort kv.2.loadBalancer = "") →
       buildContainer p c = none) ∧
    buildConfiguration provWtf [ctMwNoPort] = emptyConf := by
  refine ⟨?_, ?_, rfl⟩
  · intro p pre post c h
    exact buildConfiguration_skip p pre post c h
  · intro p c dc hdec htr hts hports hsvcports
    cases hkeep : keepContainer p c with
    | false => simp [buildContainer, hkeep]
    | true =>
        simp only [buildContainer, hkeep, if_true, hdec]
        rw [if_neg (by simp [htr, hts])]
        have hfail : buildServiceConfiguration c dc.http = none := by
          cases hsv : dc.http.services with
          | nil =>
              have hadd : addServer c defaultDecodedService.loadBalancer = none := by
                simp [addServer, resolvedPort, getLBServerPort, defaultDecodedService,
                  getPort, hports]
              simp [buildServiceConfiguration, hsv, resolveServices, hadd]
          | cons hd t =>
              rcases hd with ⟨sn, sv⟩
              have hp : getLBServerPort sv.loadBalancer = "" := by
                apply hsvcports (sn, sv)
                rw [hsv]
                exact List.mem_cons_self _ _
              have hadd : addServer c sv.loadBalancer = none := by
                simp [addServer, resolvedPort, hp, getPort, hports]
              simp [buildServiceConfiguration, hsv, resolveServices, hadd]
        simp [hfail]

/-- Witness for claim C10: removing the portless middleware-labelled
container from a snapshot leaves the build unchanged. -/
theorem claim_C10_witness :
    buildContainer provWtf ctMwNoPort = none ∧
    buildConfiguration provWtf ([] ++ ctMwNoPort :: [ctPlain]) =
      buildConfiguration provWtf ([] ++ [ctPlain]) := by
  have hnone : buildContainer provWtf ctMwNoPort = none :=
    claim_C10_unresolved_endpoint_contributes_nothing.2.1 provWtf ctMwNoPort
      ⟨⟨[], [("Middleware1", .maxConn 42 "request.host")], []⟩, ⟨[], []⟩⟩
      rfl rfl rfl rfl (by intro kv hkv; simp at hkv)
  exact ⟨hnone,
    claim_C10_unresolved_endpoint_contributes_nothing.1 provWtf [] [ctPlain]
      ctMwNoPort hnone⟩

end Traefik
